import Mathlib

/-!
Shallow embedding of the antenna-tracker control loop in
`tracker/tracker.ino`, together with theorems settling the claims about
its coordinate mapping, slew limiting, command parsing and watchdog.

C `int` arithmetic is modelled by `Int`; the C `%` and `/` operators
(truncation toward zero) are `Int.tmod` and `Int.tdiv`; C `abs` is `|·|`.
-/

namespace Tracker

/-- Configuration constants, verbatim from the top of tracker.ino. -/
def slot_time_ms : Int := 100

/-- Watchdog limit: move to 0/0 after this time (tracker.ino line 68). -/
def reset_limit_ms : Int := 30000

/-- Small azimuth servo movement permitted per slot (line 70). -/
def minAZperslot : Int := 3

/-- Small elevation servo movement permitted per slot (line 71). -/
def minELperslot : Int := 3

/-- Large azimuth servo movement permitted per slot (line 72). -/
def maxAZperslot : Int := 15

/-- Large elevation servo movement permitted per slot (line 73). -/
def maxELperslot : Int := 15

/-- Embedding of `translateAZEL` (tracker.ino lines 205-247).  The C
function writes through the out-parameters `*AZservo_pos` and
`*ELservo_pos` only inside the matched `switch` case; we therefore pass
the previous values of the out-parameters and return the pair left in
them after the call, so that a fall-through of the `switch` (no case
matched) leaves both values unchanged. -/
def translateAZEL (AZ EL AZservo_pos ELservo_pos : Int) : Int × Int :=
  let az := AZ.tmod 360
  let el0 := EL.tmod 360
  let el := if el0 > 90 then 90 else el0
  let quadrant := az.tdiv 90
  if quadrant = 0 then (90 - az, el)
  else if quadrant = 1 then (270 - az, 180 - el)
  else if quadrant = 2 then (270 - az, 180 - el)
  else if quadrant = 3 then (450 - az, el)
  else (AZservo_pos, ELservo_pos)

/-- Embedding of the per-axis slew-limiting step (tracker.ino lines
141-163, duplicated for the elevation axis at lines 165-187): snap to
the target when the gap is below `minStep`, otherwise move to the
integer midpoint, clamped to a move of exactly `maxStep` when the
midpoint is still more than `maxStep` away from the target. -/
def slewStep (last target minStep maxStep : Int) : Int :=
  if |last - target| < minStep then target
  else
    let cand := (last + target).tdiv 2
    if |cand - target| > maxStep then
      if cand > last then last + maxStep else last - maxStep
    else cand

/-- Modelled from the spec: the Arduino `Serial.parseFloat` numeric-token
scanner (the Stream library is not part of this repository).  Per spec
section 4.3 it skips non-numeric characters until a digit or a minus
sign, consumes the maximal following run of digits and decimal points,
and yields the floating-point value; the caller truncates it to an
integer, which equals the signed value of the digits before the first
decimal point.  Returns the truncated value and the unconsumed rest of
the stream; an exhausted stream yields 0. -/
def parseFloatTrunc (s : List Char) : Int × List Char :=
  match s.dropWhile (fun c => !(c.isDigit || c == '-')) with
  | [] => (0, [])
  | c :: cs =>
    let body := cs.takeWhile (fun x => x.isDigit || x == '.')
    let rest := cs.dropWhile (fun x => x.isDigit || x == '.')
    let intDigits := (if c == '-' then body else c :: body).takeWhile (fun x => x.isDigit)
    let v := intDigits.foldl (fun a d => 10 * a + ((d.toNat : Int) - 48)) 0
    (if c == '-' then -v else v, rest)

/-- Fuel-indexed serial drain loop (tracker.ino lines 113-135): read a
byte; a non-marker byte stops the drain leaving the rest of the buffer;
the marker character resets the watchdog timer and parses two numeric
tokens into AZ and EL.  The fuel argument only forces termination; the
wrapper `drain` supplies enough fuel that it is never exhausted. -/
def drainF : Nat → List Char → Int → Int → Int → Int × Int × Int × List Char
  | _, [], az, el, rt => (az, el, rt, [])
  | 0, input, az, el, rt => (az, el, rt, input)
  | fuel + 1, c :: cs, az, el, rt =>
    if c = 'A' then
      let p1 := parseFloatTrunc cs
      let p2 := parseFloatTrunc p1.2
      drainF fuel p2.2 p1.1 p2.1 0
    else (az, el, rt, cs)

/-- The serial drain loop of one tick (tracker.ino lines 113-135),
returning the updated requested azimuth, requested elevation, watchdog
timer, and the bytes left unread in the buffer. -/
def drain (input : List Char) (az el rt : Int) : Int × Int × Int × List Char :=
  drainF (input.length + 1) input az el rt

/-- The static variables of `loop` (tracker.ino lines 97-106) together
with the watchdog timer `reset_timer` (line 67). -/
structure LoopState where
  AZ : Int
  EL : Int
  AZservo_pos : Int
  ELservo_pos : Int
  last_AZservo_pos : Int
  last_ELservo_pos : Int
  reset_timer : Int
  deriving Repr, DecidableEq

/-- State after `setup()`: requested position 0/0, both servo target and
commanded positions at the home pose (90, 0), watchdog timer 0
(tracker.ino lines 67 and 97-106). -/
def initState : LoopState :=
  ⟨0, 0, 90, 0, 90, 0, 0⟩

/-- One iteration of `loop` (tracker.ino lines 94-203): drain the serial
input, translate the requested position to servo targets, slew-limit
each axis, advance the watchdog timer by the slot time and, when it
exceeds the limit, reset it and home the requested position.  `input`
is the byte stream available on the serial port during this tick. -/
def loopTick (s : LoopState) (input : List Char) : LoopState :=
  let d := drain input s.AZ s.EL s.reset_timer
  let az := d.1
  let el := d.2.1
  let rt := d.2.2.1
  let servo := translateAZEL az el s.AZservo_pos s.ELservo_pos
  let lastAZ := slewStep s.last_AZservo_pos servo.1 minAZperslot maxAZperslot
  let lastEL := slewStep s.last_ELservo_pos servo.2 minELperslot maxELperslot
  let rt2 := rt + slot_time_ms
  if rt2 > reset_limit_ms then
    ⟨0, 0, servo.1, servo.2, lastAZ, lastEL, 0⟩
  else
    ⟨az, el, servo.1, servo.2, lastAZ, lastEL, rt2⟩

/-- Repeated loop iterations from the post-setup state, one input byte
list per tick. -/
def runTicks (inputs : List (List Char)) : LoopState :=
  inputs.foldl loopTick initState

/-- A tick input in which the drain loop recognizes no command frame:
the buffer is empty or its first byte is not the marker character. -/
def noFrame (input : List Char) : Prop :=
  input.head? ≠ some 'A'

/-- Iterated loop ticks from an arbitrary state, tick k receiving the
byte list ins k. -/
def runSteps (s : LoopState) (ins : Nat → List Char) : Nat → LoopState
  | 0 => s
  | n + 1 => loopTick (runSteps s ins n) (ins n)

/-- Truncating division and remainder agree with the C semantics of
`/` and `%`: the quotient-remainder identity holds and the remainder
has the sign of the dividend with magnitude below the divisor. -/
theorem tdiv_tmod_facts (a n : Int) (hn : 0 < n) :
    n * a.tdiv n + a.tmod n = a ∧
      ((0 ≤ a ∧ 0 ≤ a.tmod n ∧ a.tmod n < n) ∨
        (a < 0 ∧ -n < a.tmod n ∧ a.tmod n ≤ 0)) := by
  have hneg : ∀ x : Int, (-x).tmod n = -(x.tmod n) := by
    intro x
    have h1 := Int.tdiv_add_tmod x n
    have h2 := Int.tdiv_add_tmod (-x) n
    rw [Int.neg_tdiv] at h2
    have h3 : n * -(x.tdiv n) = -(n * x.tdiv n) := by ring
    omega
  refine ⟨Int.tdiv_add_tmod a n, ?_⟩
  rcases le_or_lt 0 a with ha | ha
  · exact Or.inl ⟨ha, Int.tmod_nonneg n ha, Int.tmod_lt_of_pos a hn⟩
  · refine Or.inr ⟨ha, ?_, ?_⟩
    · have h := hneg (-a)
      rw [neg_neg] at h
      have h2 := Int.tmod_lt_of_pos (-a) hn
      omega
    · have h := hneg (-a)
      rw [neg_neg] at h
      have h2 := Int.tmod_nonneg (a := -a) n (by omega)
      omega

/-- C1: for every azimuth az in [0,359] and elevation el in [0,90],
translateAZEL returns the quadrant-table result: (90−az, el) when az is
in [0,90), (270−az, 180−el) when az is in [90,270), and (450−az, el)
when az is in [270,360); in particular map(0,0) = (90,0),
map(90,45) = (180,135) and map(359,10) = (91,10). -/
theorem C1_quadrant_table (az el p q : Int)
    (haz0 : 0 ≤ az) (haz1 : az ≤ 359) (hel0 : 0 ≤ el) (hel1 : el ≤ 90) :
    translateAZEL az el p q =
      (if az < 90 then (90 - az, el)
       else if az < 270 then (270 - az, 180 - el)
       else (450 - az, el)) ∧
    translateAZEL 0 0 p q = (90, 0) ∧
    translateAZEL 90 45 p q = (180, 135) ∧
    translateAZEL 359 10 p q = (91, 10) := by
  refine ⟨?_, rfl, rfl, rfl⟩
  have h1 := tdiv_tmod_facts az 360 (by omega)
  have haz : az.tmod 360 = az := by omega
  have h2 := tdiv_tmod_facts el 360 (by omega)
  have hel : el.tmod 360 = el := by omega
  have hq := tdiv_tmod_facts az 90 (by omega)
  simp only [translateAZEL, haz, hel]
  split_ifs <;> first | rfl | (exfalso; omega)

/-- C1 witness: the quadrant table evaluated at azimuth 100,
elevation 50. -/
theorem C1_quadrant_table_witness :
    translateAZEL 100 50 0 0 = (170, 130) := by
  have h := (C1_quadrant_table 100 50 0 0 (by decide) (by decide) (by decide)
    (by decide)).1
  rw [if_neg (by decide), if_pos (by decide)] at h
  rw [h]
  norm_num

/-- C3 counterexample: the claim that translateAZEL is total over all
integers with both components in [0,180] fails at azimuth 0,
elevation −10: the elevation component of the result is −10. -/
theorem C3_range_counterexample :
    ¬ (0 ≤ (translateAZEL 0 (-10) 90 0).2 ∧
        (translateAZEL 0 (-10) 90 0).2 ≤ 180) := by decide

/-- C3 amended: for nonnegative azimuth and elevation inputs,
translateAZEL produces both output components in [0,180]. -/
theorem C3_range_nonneg (az el p q : Int) (haz : 0 ≤ az) (hel : 0 ≤ el) :
    0 ≤ (translateAZEL az el p q).1 ∧ (translateAZEL az el p q).1 ≤ 180 ∧
      0 ≤ (translateAZEL az el p q).2 ∧ (translateAZEL az el p q).2 ≤ 180 := by
  have h1 := tdiv_tmod_facts az 360 (by omega)
  have h2 := tdiv_tmod_facts el 360 (by omega)
  have hq := tdiv_tmod_facts (az.tmod 360) 90 (by omega)
  simp only [translateAZEL]
  split_ifs <;> simp only [Prod.fst, Prod.snd] <;> omega

/-- C3 witness: the amended range property at azimuth 400,
elevation 100. -/
theorem C3_range_nonneg_witness :
    0 ≤ (translateAZEL 400 100 (-5) (-7)).1 ∧
      (translateAZEL 400 100 (-5) (-7)).1 ≤ 180 ∧
      0 ≤ (translateAZEL 400 100 (-5) (-7)).2 ∧
      (translateAZEL 400 100 (-5) (-7)).2 ≤ 180 :=
  C3_range_nonneg 400 100 (-5) (-7) (by decide) (by decide)

/-- C5 counterexample: azimuth periodicity fails at azimuth −100 (the
C remainder −100 % 360 = −100 matches no switch quadrant, so the call
leaves the previous servo pair (90,0) in place, while azimuth 260 maps
to (10,180)); moreover map(450,0) is (180,180), not (180,0) as the
claim states. -/
theorem C5_periodicity_counterexample :
    translateAZEL (-100) 0 90 0 ≠ translateAZEL (-100 + 360) 0 90 0 ∧
      translateAZEL 450 0 90 0 ≠ (180, 0) := by decide

/-- C5 amended: for nonnegative azimuth, the coordinate mapping is
periodic in azimuth with period 360, and map(450,0) = map(90,0) =
(180,180). -/
theorem C5_periodicity_nonneg (az el p q : Int) (haz : 0 ≤ az) :
    translateAZEL (az + 360) el p q = translateAZEL az el p q ∧
      translateAZEL 450 0 p q = translateAZEL 90 0 p q ∧
      translateAZEL 90 0 p q = (180, 180) := by
  refine ⟨?_, rfl, rfl⟩
  have hkey : (az + 360).tmod 360 = az.tmod 360 := by
    rw [Int.tmod_eq_emod (by omega) (by omega), Int.tmod_eq_emod haz (by omega)]
    omega
  simp only [translateAZEL, hkey]

/-- C5 witness: periodicity at azimuth 10, elevation 20. -/
theorem C5_periodicity_nonneg_witness :
    translateAZEL (10 + 360) 20 1 2 = translateAZEL 10 20 1 2 :=
  (C5_periodicity_nonneg 10 20 1 2 (by decide)).1

/-- C9: whenever the C remainder az % 360 is at most −90, translateAZEL
matches no switch case and leaves both output parameters unchanged, so
the previous servo targets persist. -/
theorem C9_fallthrough_unchanged (az el p q : Int)
    (h : az.tmod 360 ≤ -90) :
    translateAZEL az el p q = (p, q) := by
  have h1 := tdiv_tmod_facts az 360 (by omega)
  have hq := tdiv_tmod_facts (az.tmod 360) 90 (by omega)
  simp only [translateAZEL]
  split_ifs <;> first | rfl | (exfalso; omega)

/-- C9 witness: azimuth −100 (C remainder −100) leaves the previous
servo pair (7,8) untouched. -/
theorem C9_fallthrough_unchanged_witness :
    translateAZEL (-100) 5 7 8 = (7, 8) :=
  C9_fallthrough_unchanged (-100) 5 7 8 (by decide)

/-- The slew step changes the commanded position by at most one more
than the maximum step: the midpoint rounding of C integer division can
exceed the clamp threshold by exactly one. -/
theorem slew_change_bound (l t minS maxS : Int) (h1 : minS ≤ maxS + 2)
    (h2 : 0 ≤ maxS) : |slewStep l t minS maxS - l| ≤ maxS + 1 := by
  have hd := tdiv_tmod_facts (l + t) 2 (by omega)
  simp only [slewStep, Int.abs_eq_natAbs]
  split_ifs <;> omega

/-- The commanded azimuth field after one tick is the slew step applied
to the previous commanded azimuth and the translated target. -/
theorem loopTick_last_AZ (s : LoopState) (input : List Char) :
    (loopTick s input).last_AZservo_pos =
      slewStep s.last_AZservo_pos
        (translateAZEL (drain input s.AZ s.EL s.reset_timer).1
          (drain input s.AZ s.EL s.reset_timer).2.1
          s.AZservo_pos s.ELservo_pos).1
        minAZperslot maxAZperslot := by
  simp only [loopTick]
  split_ifs <;> rfl

/-- The commanded elevation field after one tick is the slew step
applied to the previous commanded elevation and the translated
target. -/
theorem loopTick_last_EL (s : LoopState) (input : List Char) :
    (loopTick s input).last_ELservo_pos =
      slewStep s.last_ELservo_pos
        (translateAZEL (drain input s.AZ s.EL s.reset_timer).1
          (drain input s.AZ s.EL s.reset_timer).2.1
          s.AZservo_pos s.ELservo_pos).2
        minELperslot maxELperslot := by
  simp only [loopTick]
  split_ifs <;> rfl

/-- C2 counterexample: in a run from the post-setup state fed the
frames A0 1, A0 46, A0 46, A0 0 (one per tick), the commanded elevation
goes 0, 1, 16, 31 and then 15, a change of 16 in one tick, exceeding
maxELperslot = 15.  The rate-limiting invariant as claimed is false. -/
theorem C2_rate_limit_counterexample :
    ¬ (|(runTicks [("A0 1").toList, ("A0 46").toList, ("A0 46").toList,
          ("A0 0").toList]).last_ELservo_pos -
        (runTicks [("A0 1").toList, ("A0 46").toList,
          ("A0 46").toList]).last_ELservo_pos| ≤ maxELperslot) := by decide

/-- C2 amended: for every tick and each axis, the absolute change of
the commanded servo position is at most maxStepDeg + 1 for that axis
(the integer-midpoint rounding can exceed maxStepDeg by one). -/
theorem C2_rate_limit_bound (s : LoopState) (input : List Char) :
    |(loopTick s input).last_AZservo_pos - s.last_AZservo_pos| ≤
        maxAZperslot + 1 ∧
      |(loopTick s input).last_ELservo_pos - s.last_ELservo_pos| ≤
        maxELperslot + 1 := by
  constructor
  · rw [loopTick_last_AZ]
    exact slew_change_bound _ _ _ _ (by decide) (by decide)
  · rw [loopTick_last_EL]
    exact slew_change_bound _ _ _ _ (by decide) (by decide)

/-- C4: the per-axis slew step implements the asymmetric ease/clamp
policy: below minStep snap to the target, otherwise adopt the integer
midpoint when it is within maxStep of the target and move exactly
maxStep toward the target otherwise; in particular step(0,100,3,15) =
15 and step(95,100,3,15) = 97. -/
theorem C4_slew_policy (l t minS maxS : Int) (hmax : 0 ≤ maxS) :
    (|l - t| < minS → slewStep l t minS maxS = t) ∧
      (¬ |l - t| < minS →
        (|(l + t).tdiv 2 - t| ≤ maxS →
            slewStep l t minS maxS = (l + t).tdiv 2) ∧
          (maxS < |(l + t).tdiv 2 - t| →
            slewStep l t minS maxS =
              if l < t then l + maxS else l - maxS)) ∧
      slewStep 0 100 3 15 = 15 ∧ slewStep 95 100 3 15 = 97 := by
  have hd := tdiv_tmod_facts (l + t) 2 (by omega)
  simp only [Int.abs_eq_natAbs]
  refine ⟨?_, ?_, by decide, by decide⟩
  · intro h
    simp only [slewStep, Int.abs_eq_natAbs]
    rw [if_pos (by omega)]
  · intro h
    refine ⟨fun hle => ?_, fun hgt => ?_⟩
    · simp only [slewStep, Int.abs_eq_natAbs]
      rw [if_neg (by omega), if_neg (by omega)]
    · simp only [slewStep, Int.abs_eq_natAbs]
      rw [if_neg (by omega), if_pos (by omega)]
      split_ifs <;> omega

/-- C4 witness: the policy applied at last 0, target 100, steps 3
and 15. -/
theorem C4_slew_policy_witness : slewStep 0 100 3 15 = 15 :=
  (C4_slew_policy 0 100 3 15 (by decide)).2.2.1

/-- C8 counterexample: with the degenerate bounds minStep = maxStep =
−1 (which satisfy minStep ≤ maxStep), the step from 0 toward 0 moves
to 1, farther than max(maxStep, |target − last|) = 0 allows, so the
claim fails without a nonnegativity assumption on maxStep. -/
theorem C8_step_bound_counterexample :
    ¬ (|slewStep 0 0 (-1) (-1) - 0| ≤ max (-1 : Int) |(0 : Int) - 0|) := by
  decide

/-- C8 amended: for minStep ≤ maxStep with 0 ≤ maxStep, the slew step
moves at most max(maxStep, |target − last|) away from last, and below
minStep it returns exactly the target. -/
theorem C8_step_bound (l t minS maxS : Int) (hms : minS ≤ maxS)
    (hmax : 0 ≤ maxS) :
    |slewStep l t minS maxS - l| ≤ max maxS |t - l| ∧
      (|l - t| < minS → slewStep l t minS maxS = t) := by
  have hd := tdiv_tmod_facts (l + t) 2 (by omega)
  constructor
  · simp only [slewStep, Int.abs_eq_natAbs, max_def]
    split_ifs <;> omega
  · intro h
    simp only [slewStep]
    rw [if_pos h]

/-- C8 witness: the bound at last 0, target 100, steps 3 and 15. -/
theorem C8_step_bound_witness :
    |slewStep 0 100 3 15 - 0| ≤ max (15 : Int) |(100 : Int) - 0| :=
  (C8_step_bound 0 100 3 15 (by decide) (by decide)).1

/-- C10: for bounds 0 ≤ minStep ≤ maxStep the slew step never
overshoots: the result lies between last and target inclusive, and in
particular stays in [0,180] when both endpoints are. -/
theorem C10_no_overshoot (l t minS maxS : Int) (h0 : 0 ≤ minS)
    (_hms : minS ≤ maxS) :
    min l t ≤ slewStep l t minS maxS ∧ slewStep l t minS maxS ≤ max l t ∧
      (0 ≤ l → l ≤ 180 → 0 ≤ t → t ≤ 180 →
        0 ≤ slewStep l t minS maxS ∧ slewStep l t minS maxS ≤ 180) := by
  have hd := tdiv_tmod_facts (l + t) 2 (by omega)
  simp only [slewStep, Int.abs_eq_natAbs, min_def, max_def]
  split_ifs <;> omega

/-- C10 witness: no overshoot at last 0, target 100, steps 3 and 15. -/
theorem C10_no_overshoot_witness :
    min (0 : Int) 100 ≤ slewStep 0 100 3 15 ∧
      slewStep 0 100 3 15 ≤ max (0 : Int) 100 ∧
      ((0 : Int) ≤ 0 → (0 : Int) ≤ 180 → (0 : Int) ≤ 100 →
        (100 : Int) ≤ 180 →
        0 ≤ slewStep 0 100 3 15 ∧ slewStep 0 100 3 15 ≤ 180) :=
  C10_no_overshoot 0 100 3 15 (by decide) (by decide)

/-- The numeric-token scanner only consumes characters: the unread rest
of the stream is no longer than the input. -/
theorem pf_rest_length_le (s : List Char) :
    (parseFloatTrunc s).2.length ≤ s.length := by
  unfold parseFloatTrunc
  cases h : s.dropWhile (fun c => !(c.isDigit || c == '-')) with
  | nil => simp
  | cons c cs =>
    have h1 : (cs.dropWhile (fun x => x.isDigit || x == '.')).length ≤ cs.length :=
      (List.dropWhile_sublist _).length_le
    have h2 : (c :: cs).length ≤ s.length := by
      rw [← h]
      exact (List.dropWhile_sublist _).length_le
    simp only [List.length_cons] at h2
    simp only []
    omega

/-- The fuel argument of drainF is irrelevant as long as it exceeds the
length of the input. -/
theorem drainF_congr (f : Nat) : ∀ (g : Nat) (input : List Char)
    (az el rt : Int), input.length < f → input.length < g →
    drainF f input az el rt = drainF g input az el rt := by
  induction f with
  | zero => intro g input az el rt hf hg; omega
  | succ f ih =>
    intro g input az el rt hf hg
    cases input with
    | nil =>
      cases g with
      | zero => omega
      | succ g => rfl
    | cons c cs =>
      cases g with
      | zero => omega
      | succ g =>
        simp only [drainF]
        split_ifs with hc
        · have hp : (parseFloatTrunc (parseFloatTrunc cs).2).2.length ≤ cs.length :=
            le_trans (pf_rest_length_le _) (pf_rest_length_le cs)
          exact ih g _ _ _ _
            (by simp only [List.length_cons] at hf; omega)
            (by simp only [List.length_cons] at hg; omega)
        · rfl

/-- C7: reading the frame marker resets the watchdog timer to 0, sets
the requested azimuth and elevation to the truncations of the next two
numeric tokens, and keeps draining; a non-marker byte stops the drain
for this tick leaving the remaining bytes in the buffer; and a full
frame AZ123.4 EL45.6 parses to azimuth 123, elevation 45. -/
theorem C7_drain_frame (c : Char) (cs : List Char) (az el rt : Int) :
    drain (c :: cs) az el rt =
      (if c = 'A' then
        drain (parseFloatTrunc (parseFloatTrunc cs).2).2 (parseFloatTrunc cs).1
          (parseFloatTrunc (parseFloatTrunc cs).2).1 0
      else (az, el, rt, cs)) ∧
    drain (("AZ123.4 EL45.6").toList) az el rt = (123, 45, 0, []) := by
  constructor
  · show drainF (cs.length + 1 + 1) (c :: cs) az el rt = _
    simp only [drainF]
    split_ifs with hc
    · have hp : (parseFloatTrunc (parseFloatTrunc cs).2).2.length ≤ cs.length :=
        le_trans (pf_rest_length_le _) (pf_rest_length_le cs)
      exact drainF_congr _ _ _ _ _ _ (by omega) (by omega)
    · rfl
  · rfl

/-- One tick on a bufferful with no recognized frame leaves the
requested position untouched and either advances the watchdog timer by
the slot time or, past the limit, homes the position and resets the
timer. -/
theorem loopTick_noFrame (s : LoopState) (input : List Char)
    (h : noFrame input) :
    (loopTick s input).AZ =
        (if s.reset_timer + slot_time_ms > reset_limit_ms then 0 else s.AZ) ∧
      (loopTick s input).EL =
        (if s.reset_timer + slot_time_ms > reset_limit_ms then 0 else s.EL) ∧
      (loopTick s input).reset_timer =
        (if s.reset_timer + slot_time_ms > reset_limit_ms then 0
          else s.reset_timer + slot_time_ms) := by
  have hd : drain input s.AZ s.EL s.reset_timer =
      (s.AZ, s.EL, s.reset_timer, input.tail) := by
    cases input with
    | nil => rfl
    | cons c cs =>
      have hc : c ≠ 'A' := by simpa [noFrame] using h
      show drainF (cs.length + 1 + 1) (c :: cs) _ _ _ = _
      simp only [drainF, if_neg hc]
      rfl
  simp only [loopTick, hd]
  split_ifs <;> exact ⟨rfl, rfl, rfl⟩

/-- Over a run of frameless ticks in which the watchdog never fires,
the requested position is unchanged and the timer accumulates the slot
time of every tick. -/
theorem runSteps_no_fire (s : LoopState) (ins : Nat → List Char) (n : Nat)
    (hnf : ∀ k, k < n → noFrame (ins k))
    (hb : ∀ k : Nat, k < n →
      s.reset_timer + slot_time_ms * ((k : Int) + 1) ≤ reset_limit_ms) :
    (runSteps s ins n).AZ = s.AZ ∧ (runSteps s ins n).EL = s.EL ∧
      (runSteps s ins n).reset_timer =
        s.reset_timer + slot_time_ms * (n : Int) := by
  induction n with
  | zero =>
    refine ⟨rfl, rfl, ?_⟩
    show s.reset_timer = s.reset_timer + slot_time_ms * ((0 : Nat) : Int)
    simp
  | succ n ih =>
    obtain ⟨hAZ, hEL, hrt⟩ :=
      ih (fun k hk => hnf k (by omega)) (fun k hk => hb k (by omega))
    obtain ⟨tAZ, tEL, trt⟩ :=
      loopTick_noFrame (runSteps s ins n) (ins n) (hnf n (by omega))
    have hcond : ¬ ((runSteps s ins n).reset_timer + slot_time_ms >
        reset_limit_ms) := by
      rw [hrt]
      have hbn := hb n (by omega)
      simp only [slot_time_ms, reset_limit_ms] at hbn ⊢
      omega
    refine ⟨?_, ?_, ?_⟩
    · rw [show runSteps s ins (n + 1) = loopTick (runSteps s ins n) (ins n)
        from rfl, tAZ, if_neg hcond, hAZ]
    · rw [show runSteps s ins (n + 1) = loopTick (runSteps s ins n) (ins n)
        from rfl, tEL, if_neg hcond, hEL]
    · rw [show runSteps s ins (n + 1) = loopTick (runSteps s ins n) (ins n)
        from rfl, trt, if_neg hcond, hrt]
      push_cast
      ring

/-- C6: in a run of ticks recognizing no command frame, the requested
position is set to (0,0) at exactly the first tick whose accumulated
elapsed time strictly exceeds the limit, and the elapsed counter is
reset to 0 at that same tick; through all earlier ticks the requested
position is unchanged and the counter accumulates. -/
theorem C6_watchdog_fire (s : LoopState) (ins : Nat → List Char) (n : Nat)
    (hnf : ∀ k, k ≤ n → noFrame (ins k))
    (hbefore : ∀ k : Nat, k < n →
      s.reset_timer + slot_time_ms * ((k : Int) + 1) ≤ reset_limit_ms)
    (hfire : reset_limit_ms < s.reset_timer + slot_time_ms * ((n : Int) + 1)) :
    (runSteps s ins n).AZ = s.AZ ∧ (runSteps s ins n).EL = s.EL ∧
      (runSteps s ins n).reset_timer =
        s.reset_timer + slot_time_ms * (n : Int) ∧
      (runSteps s ins (n + 1)).AZ = 0 ∧ (runSteps s ins (n + 1)).EL = 0 ∧
      (runSteps s ins (n + 1)).reset_timer = 0 := by
  obtain ⟨hAZ, hEL, hrt⟩ := runSteps_no_fire s ins n
    (fun k hk => hnf k (by omega)) hbefore
  obtain ⟨tAZ, tEL, trt⟩ :=
    loopTick_noFrame (runSteps s ins n) (ins n) (hnf n (le_refl n))
  have hcond : (runSteps s ins n).reset_timer + slot_time_ms >
      reset_limit_ms := by
    rw [hrt]
    simp only [slot_time_ms, reset_limit_ms] at hfire ⊢
    omega
  refine ⟨hAZ, hEL, hrt, ?_, ?_, ?_⟩
  · rw [show runSteps s ins (n + 1) = loopTick (runSteps s ins n) (ins n)
      from rfl, tAZ, if_pos hcond]
  · rw [show runSteps s ins (n + 1) = loopTick (runSteps s ins n) (ins n)
      from rfl, tEL, if_pos hcond]
  · rw [show runSteps s ins (n + 1) = loopTick (runSteps s ins n) (ins n)
      from rfl, trt, if_pos hcond]

/-- C6 witness: from the post-setup state with empty serial input every
tick, the watchdog fires exactly at tick 301 (30100 ms > 30000 ms). -/
theorem C6_watchdog_fire_witness :
    (runSteps initState (fun _ => []) 300).AZ = initState.AZ ∧
      (runSteps initState (fun _ => []) 300).EL = initState.EL ∧
      (runSteps initState (fun _ => []) 300).reset_timer =
        initState.reset_timer + slot_time_ms * ((300 : Nat) : Int) ∧
      (runSteps initState (fun _ => []) (300 + 1)).AZ = 0 ∧
      (runSteps initState (fun _ => []) (300 + 1)).EL = 0 ∧
      (runSteps initState (fun _ => []) (300 + 1)).reset_timer = 0 :=
  C6_watchdog_fire initState (fun _ => []) 300
    (fun k hk => by simp [noFrame])
    (fun k hk => by
      simp only [initState, slot_time_ms, reset_limit_ms]
      omega)
    (by
      simp only [initState, slot_time_ms, reset_limit_ms]
      omega)

end Tracker
